import Mathlib

/-!
Verification of the computer-use agent loop of the Extab repository.

The embedded code is `executeComputerAction` and `computerUseAgentLoop`
(the computer-use agent-loop module).  The two external collaborators are
modelled as oracles:
* the Action Executor (the Tauri `invoke` IPC surface) is a function from
  a concrete primitive call to `Except String String` — `.error m` models a
  raised failure with message `m`;
* the Model Endpoint is a function from the call index to an `ApiResponse`
  (non-success status, malformed body, or parsed content plus stop reason).

JavaScript exceptions are modelled with `Except String`; accessing an index
of an `undefined` field (e.g. `params.coordinate[0]` when `coordinate` is
absent) throws a `TypeError`, modelled by `jsUndefinedErr`.
-/

namespace ComputerUse

/-- An `[x, y]` coordinate array. -/
abbrev Coord := Int × Int

/-- One Action Executor primitive call together with its arguments:
models one `invoke(cmd, args)` call made by `executeComputerAction`. -/
inductive InvokeCall where
  | capture_to_base64
  | computer_mouse_move (x y : Int)
  | computer_mouse_click (x y : Int) (button : String)
  | computer_mouse_double_click (x y : Int)
  | computer_mouse_drag (fromX fromY toX toY : Int)
  | computer_mouse_scroll (x y scrollX scrollY : Int)
  | computer_keyboard_type (text : String)
  | computer_keyboard_key (key : String)
deriving DecidableEq, Repr

/-- The Action Executor: each primitive call either returns a result string
(for `capture_to_base64`, the base64 image data) or raises a failure. -/
abbrev Executor := InvokeCall → Except String String

/-- Content of a `ToolResult`: either a plain string or the singleton image
block `[{type: "image", source: {type: "base64", media_type, data}}]`. -/
inductive ToolContent where
  | text (s : String)
  | image (media_type : String) (data : String)
deriving DecidableEq, Repr

/-- The `ToolResult` record produced by `executeComputerAction`.
`is_error` is absent (i.e. `undefined`, falsy) unless set, modelled by the
default `false`. -/
structure ToolResult where
  tool_use_id : String
  content : ToolContent
  is_error : Bool := false
deriving DecidableEq, Repr

/-- The `input` object of a `tool_use` block.  Fields not present on the
JavaScript object are `none` (for coordinates) or take the stated default. -/
structure ToolInput where
  action : String
  coordinate : Option Coord := none
  start_coordinate : Option Coord := none
  end_coordinate : Option Coord := none
  scroll_direction : String := ""
  scroll_amount : Int := 0
  text : String := ""
deriving DecidableEq, Repr

/-- The `params` argument of `executeComputerAction`:
the spread `...toolUse.input` plus `tool_use_id`. -/
structure Params extends ToolInput where
  tool_use_id : String
deriving DecidableEq, Repr

/-- Models the call-site spread `{...toolUse.input, tool_use_id: toolUse.id}`. -/
def mkParams (id : String) (inp : ToolInput) : Params :=
  { inp with tool_use_id := id }

/-- The optional `onActionExecuted` callback.  A JavaScript callback may
raise, hence the `Except` result; a well-behaved observer returns `.ok ()`. -/
abbrev Observer := String → Params → Except String Unit

/-- Trace of the observable side effects of one dispatch, in order. -/
inductive TraceEntry where
  | observer (action : String) (params : Params)
  | invoke (call : InvokeCall)
deriving DecidableEq, Repr

/-- Message of the `TypeError` thrown when indexing an `undefined` field
(the exact wording is engine-specific and irrelevant to the claims). -/
def jsUndefinedErr : String := "TypeError: cannot read properties of undefined"

/-- A successful ack-text `ToolResult`. -/
def mkOk (params : Params) (s : String) : ToolResult :=
  { tool_use_id := params.tool_use_id, content := .text s }

/-- Perform one executor call and wrap its ack text into a `ToolResult`. -/
def invokeStep (exec : Executor) (c : InvokeCall) (params : Params) :
    List TraceEntry × Except String ToolResult :=
  ([.invoke c], (exec c).map (mkOk params))

/-- Branches that read `params.coordinate[0]` / `[1]`: a missing coordinate
throws before any executor call. -/
def coordStep (exec : Executor) (params : Params) (mk : Coord → InvokeCall) :
    List TraceEntry × Except String ToolResult :=
  match params.coordinate with
  | none => ([], .error jsUndefinedErr)
  | some c => invokeStep exec (mk c) params

/-- Models `params.coordinate?.[i] || 0`: the coordinate, with `(0, 0)` for
a missing field (note `0 || 0` is also `0`, so the JavaScript `|| 0` never
changes a present integer coordinate). -/
def coordOr0 (c : Option Coord) : Coord :=
  match c with
  | some p => p
  | none => (0, 0)

/-- Models `scroll_direction === "down" ? scroll_amount : -scroll_amount`. -/
def scrollDelta (params : Params) : Int :=
  if params.scroll_direction = "down" then params.scroll_amount else -params.scroll_amount

/-- The `switch (action)` body of `executeComputerAction`: trace of executor
calls made, and either the `ToolResult` or the message of a raised failure. -/
def dispatchSwitch (exec : Executor) (action : String) (params : Params) :
    List TraceEntry × Except String ToolResult :=
  if action = "screenshot" then
    ([.invoke .capture_to_base64],
     (exec .capture_to_base64).map fun s =>
       { tool_use_id := params.tool_use_id, content := .image "image/jpeg" s })
  else if action = "mouse_move" then
    coordStep exec params fun c => .computer_mouse_move c.1 c.2
  else if action = "left_click" then
    coordStep exec params fun c => .computer_mouse_click c.1 c.2 "left"
  else if action = "right_click" then
    coordStep exec params fun c => .computer_mouse_click c.1 c.2 "right"
  else if action = "middle_click" then
    coordStep exec params fun c => .computer_mouse_click c.1 c.2 "middle"
  else if action = "double_click" then
    coordStep exec params fun c => .computer_mouse_double_click c.1 c.2
  else if action = "left_click_drag" then
    match params.start_coordinate, params.end_coordinate with
    | some s, some e => invokeStep exec (.computer_mouse_drag s.1 s.2 e.1 e.2) params
    | _, _ => ([], .error jsUndefinedErr)
  else if action = "scroll" then
    invokeStep exec
      (.computer_mouse_scroll (coordOr0 params.coordinate).1 (coordOr0 params.coordinate).2
        0 (scrollDelta params)) params
  else if action = "type" then
    invokeStep exec (.computer_keyboard_type params.text) params
  else if action = "key" then
    invokeStep exec (.computer_keyboard_key params.text) params
  else
    ([], .ok { tool_use_id := params.tool_use_id,
               content := .text ("Unsupported action: " ++ action), is_error := true })

/-- Models `executeComputerAction(action, params, onActionExecuted)`: notify
the observer, run the switch, and convert any raised failure (from the
observer, a field access, or the Action Executor) into an `is_error`
`ToolResult` — the surrounding `try`/`catch` yields
`content = "Error: " ++ message`.  Also returns the dispatch trace. -/
def executeComputerAction (exec : Executor) (action : String) (params : Params)
    (onActionExecuted : Option Observer) : ToolResult × List TraceEntry :=
  let obsTrace : List TraceEntry :=
    match onActionExecuted with
    | some _ => [.observer action params]
    | none => []
  let obsRes : Except String Unit :=
    match onActionExecuted with
    | some f => f action params
    | none => .ok ()
  match obsRes with
  | .error e =>
      ({ tool_use_id := params.tool_use_id, content := .text ("Error: " ++ e),
         is_error := true }, obsTrace)
  | .ok _ =>
      match dispatchSwitch exec action params with
      | (tr, .ok res) => (res, obsTrace ++ tr)
      | (tr, .error e) =>
          ({ tool_use_id := params.tool_use_id, content := .text ("Error: " ++ e),
             is_error := true }, obsTrace ++ tr)

/-- The fixed action set handled by the `switch` (all non-default cases). -/
def supportedActions : List String :=
  ["screenshot", "mouse_move", "left_click", "right_click", "middle_click",
   "double_click", "left_click_drag", "scroll", "type", "key"]

/-! Next, the agent loop `computerUseAgentLoop`. -/

/-- One content block of a parsed endpoint reply.  Block types other than
`text`, `thinking` and `tool_use` are carried but ignored by the loop. -/
inductive Block where
  | text (s : String)
  | thinking (s : String)
  | tool_use (id : String) (input : ToolInput)
  | other (btype : String)
deriving DecidableEq, Repr

/-- Outcome of one `tauriFetch` call to the Model Endpoint.
`fail` is a non-success HTTP status with the response body text;
`malformed` is a success status whose body cannot be parsed into the
content/stop-reason shape (`response.json()` throws, with the given
message, caught by the outer `catch`);
`ok` is a parsed reply: content blocks plus `stop_reason`. -/
inductive ApiResponse where
  | fail (status : Nat) (body : String)
  | malformed (msg : String)
  | ok (content : List Block) (stop_reason : String)
deriving DecidableEq, Repr

/-- The `content` field of a transcript `Message`: `string | Array<any>` —
the seed user string, an assistant reply's blocks, or a user turn of tool
results. -/
inductive MessageContent where
  | str (s : String)
  | blocks (bs : List Block)
  | results (rs : List ToolResult)
deriving DecidableEq, Repr

/-- One entry of the `messages` transcript sent to the endpoint. -/
structure Message where
  role : String
  content : MessageContent
deriving DecidableEq, Repr

/-- One `yield` of the generator.  `iterStart i m` is the
`{type: "action", content: "Iteration i/m", data: {iteration: i}}` yield;
`executing inp` is the `{type: "action", content: "Executing: ..."}` yield. -/
inductive Event where
  | iterStart (current maxI : Nat)
  | text (s : String)
  | thinking (s : String)
  | executing (input : ToolInput)
  | error (s : String)
  | complete (s : String)
deriving DecidableEq, Repr

/-- The relevant fields of `ComputerUseConfig` (from `@/types`). -/
structure ComputerUseConfig where
  enabled : Bool := true
  model : String := "claude-sonnet-4-5-20250929"
  displayWidth : Nat := 1024
  displayHeight : Nat := 768
  maxIterations : Nat := 10
  showLiveFeedback : Bool := true
deriving DecidableEq, Repr

/-- The `for (const block of data.content)` loop: a `text`/`thinking`
progress event per narration/reasoning block, in block order. -/
def textEvents : List Block → List Event
  | [] => []
  | Block.text s :: bs => Event.text s :: textEvents bs
  | Block.thinking s :: bs => Event.thinking s :: textEvents bs
  | _ :: bs => textEvents bs

/-- Models the filter `data.content.filter(block => block.type === "tool_use")`
as the list of `(id, input)` pairs, in reply order. -/
def toolUses (content : List Block) : List (String × ToolInput) :=
  content.filterMap fun b =>
    match b with
    | .tool_use id inp => some (id, inp)
    | _ => none

/-- The `for (const toolUse of toolUses)` loop: an `Executing` event and one
dispatched `ToolResult` per invocation, strictly sequentially, in order. -/
def execTools (exec : Executor) (obs : Option Observer) :
    List (String × ToolInput) → List Event × List ToolResult
  | [] => ([], [])
  | (id, inp) :: rest =>
      (.executing inp :: (execTools exec obs rest).1,
       (executeComputerAction exec inp.action (mkParams id inp) obs).1
         :: (execTools exec obs rest).2)

/-- Content of the two completion yields. -/
def completedMsg : String := "Task completed successfully"

/-- The budget-exhaustion error content. -/
def budgetMsg (maxI : Nat) : String :=
  "Reached maximum iterations (" ++ toString maxI ++ ")"

/-- The non-success-status error content: `API Error: status - body`. -/
def transportMsg (status : Nat) (body : String) : String :=
  "API Error: " ++ toString status ++ " - " ++ body

/-- The `while (iterations < config.maxIterations)` loop.  `fuel` is
`maxI - it` where `it` is the current value of `iterations`; the endpoint
oracle is indexed by the number of previous calls, so iteration `it + 1`
consumes `responses it`.  Returns the events yielded from this point on and
the final transcript. -/
def runLoop (exec : Executor) (responses : Nat → ApiResponse) (obs : Option Observer)
    (maxI : Nat) : Nat → Nat → List Message → List Event × List Message
  | 0, _, ms => ([.error (budgetMsg maxI)], ms)
  | fuel + 1, it, ms =>
    match responses it with
    | .fail status body =>
        ([.iterStart (it + 1) maxI, .error (transportMsg status body)], ms)
    | .malformed m =>
        ([.iterStart (it + 1) maxI, .error ("Error: " ++ m)], ms)
    | .ok content stop =>
        let ms1 := ms ++ [{ role := "assistant", content := .blocks content }]
        let tus := toolUses content
        if tus = [] then
          (.iterStart (it + 1) maxI :: textEvents content ++ [.complete completedMsg], ms1)
        else
          let ms2 := ms1 ++ [{ role := "user", content := .results (execTools exec obs tus).2 }]
          if stop = "end_turn" then
            (.iterStart (it + 1) maxI :: textEvents content ++ (execTools exec obs tus).1
               ++ [.complete completedMsg], ms2)
          else
            (.iterStart (it + 1) maxI :: textEvents content ++ (execTools exec obs tus).1
               ++ (runLoop exec responses obs maxI fuel (it + 1) ms2).1,
             (runLoop exec responses obs maxI fuel (it + 1) ms2).2)

/-- Models `computerUseAgentLoop(userMessage, config, ...)`: seed the
transcript with the user message and run the loop with the full budget.
The API key, system prompt and tool-schema serialization only shape the
HTTP request and are absorbed into the `responses` oracle. -/
def computerUseAgentLoop (userMessage : String) (config : ComputerUseConfig)
    (responses : Nat → ApiResponse) (exec : Executor) (obs : Option Observer) :
    List Event × List Message :=
  runLoop exec responses obs config.maxIterations config.maxIterations 0
    [{ role := "user", content := .str userMessage }]

/-- The iteration counters carried by the `Iteration` progress events, in
emission order. -/
def iterNums (events : List Event) : List Nat :=
  events.filterMap fun e =>
    match e with
    | .iterStart i _ => some i
    | _ => none

/-- An Action Executor whose every primitive call raises with message `m`. -/
def failingExecutor (m : String) : Executor := fun _ => .error m

/-- The parameters required for each supported action to reach its executor
call (a missing coordinate throws on field access before the call). -/
def wellFormed (action : String) (params : Params) : Prop :=
  (action ∈ ["mouse_move", "left_click", "right_click", "middle_click", "double_click"] →
    params.coordinate.isSome = true) ∧
  (action = "left_click_drag" →
    params.start_coordinate.isSome = true ∧ params.end_coordinate.isSome = true)

/-- Adjacent transcript pair property: a user tool-result turn directly
following an assistant turn answers exactly that turn's invocations, in
order, id by id. -/
def pairOK (m1 m2 : Message) : Prop :=
  ∀ (content : List Block) (rs : List ToolResult),
    m1 = { role := "assistant", content := .blocks content } →
    m2 = { role := "user", content := .results rs } →
    rs.map ToolResult.tool_use_id = (toolUses content).map Prod.fst

/-- Every reply requests at least one tool invocation and never signals
end-of-turn. -/
def alwaysRequestsTools (responses : Nat → ApiResponse) : Prop :=
  ∀ i, ∃ content stop, responses i = .ok content stop ∧
    toolUses content ≠ [] ∧ stop ≠ "end_turn"

/-- Concrete executor fixture: every call succeeds with ack `"done"`. -/
def okExec : Executor := fun _ => .ok "done"

/-- Concrete reply fixture: narration plus one screenshot invocation. -/
def toolReply : Nat → ApiResponse := fun _ =>
  .ok [Block.text "hi", Block.tool_use "tu_1" { action := "screenshot" }] "tool_use"

/-- Concrete reply content fixture with two tool invocations. -/
def twoToolContent : List Block :=
  [Block.tool_use "a1" { action := "screenshot" },
   Block.tool_use "a2" { action := "type", text := "hey" }]

/-- Concrete reply fixture: two invocations then end-of-turn. -/
def twoToolReply : Nat → ApiResponse := fun _ => .ok twoToolContent "end_turn"

/-- Concrete reply fixture: narration only, no tool use. -/
def noToolReply : Nat → ApiResponse := fun _ => .ok [Block.text "bye"] "end_turn"

/-- Concrete dispatch-parameter fixture for a click at `(3, 4)`. -/
def clickParams : Params :=
  mkParams "t2" { action := "left_click", coordinate := some (3, 4) }

/-- Concrete scroll-parameter fixture with the coordinate field omitted. -/
def scrollNoCoord : Params :=
  mkParams "t" { action := "scroll", scroll_direction := "down", scroll_amount := 5 }

/-! Helper lemmas. -/

theorem invokeStep_ok_id (exec : Executor) (c : InvokeCall) (params : Params)
    (tr : List TraceEntry) (res : ToolResult)
    (h : invokeStep exec c params = (tr, .ok res)) :
    res.tool_use_id = params.tool_use_id := by
  unfold invokeStep at h
  cases hx : exec c <;> simp [Except.map, hx, mkOk] at h
  exact h.2 ▸ rfl

theorem coordStep_ok_id (exec : Executor) (params : Params) (mk : Coord → InvokeCall)
    (tr : List TraceEntry) (res : ToolResult)
    (h : coordStep exec params mk = (tr, .ok res)) :
    res.tool_use_id = params.tool_use_id := by
  unfold coordStep at h
  cases hc : params.coordinate with
  | none => simp [hc] at h
  | some c =>
    rw [hc] at h
    exact invokeStep_ok_id exec (mk c) params tr res h

set_option maxHeartbeats 1000000 in
theorem dispatchSwitch_ok_id (exec : Executor) (action : String) (params : Params)
    (tr : List TraceEntry) (res : ToolResult)
    (h : dispatchSwitch exec action params = (tr, .ok res)) :
    res.tool_use_id = params.tool_use_id := by
  unfold dispatchSwitch at h
  split_ifs at h
  · cases hx : exec InvokeCall.capture_to_base64 <;> simp [Except.map, hx] at h
    exact h.2 ▸ rfl
  · exact coordStep_ok_id _ _ _ _ _ h
  · exact coordStep_ok_id _ _ _ _ _ h
  · exact coordStep_ok_id _ _ _ _ _ h
  · exact coordStep_ok_id _ _ _ _ _ h
  · exact coordStep_ok_id _ _ _ _ _ h
  · cases hs : params.start_coordinate with
    | none => rw [hs] at h; cases he : params.end_coordinate <;> rw [he] at h <;> simp at h
    | some sc =>
      cases he : params.end_coordinate with
      | none => rw [hs, he] at h; simp at h
      | some ec =>
        rw [hs, he] at h
        exact invokeStep_ok_id _ _ _ _ _ h
  · exact invokeStep_ok_id _ _ _ _ _ h
  · exact invokeStep_ok_id _ _ _ _ _ h
  · exact invokeStep_ok_id _ _ _ _ _ h
  · simp at h
    exact h.2 ▸ rfl

theorem executeComputerAction_id (exec : Executor) (action : String) (params : Params)
    (obs : Option Observer) :
    ((executeComputerAction exec action params obs).1).tool_use_id = params.tool_use_id := by
  cases hd : dispatchSwitch exec action params with
  | mk tr r =>
    rcases obs with _ | f
    · rcases r with e | res
      · simp [executeComputerAction, hd]
      · simpa [executeComputerAction, hd] using dispatchSwitch_ok_id exec action params tr res hd
    · rcases hf : f action params with e | u
      · simp [executeComputerAction, hf]
      · rcases r with e | res
        · simp [executeComputerAction, hf, hd]
        · simpa [executeComputerAction, hf, hd] using
            dispatchSwitch_ok_id exec action params tr res hd

theorem execTools_ids (exec : Executor) (obs : Option Observer)
    (tus : List (String × ToolInput)) :
    (execTools exec obs tus).2.map ToolResult.tool_use_id = tus.map Prod.fst := by
  induction tus with
  | nil => rfl
  | cons hd tl ih =>
    cases hd with
    | mk id inp => simp [execTools, ih, executeComputerAction_id, mkParams]

theorem pairOK_to_assistant (m1 : Message) (content : List Block) :
    pairOK m1 { role := "assistant", content := .blocks content } := by
  intro c rs _ h2
  simp [Message.mk.injEq] at h2

theorem pairOK_assistant_user (exec : Executor) (obs : Option Observer)
    (content : List Block) :
    pairOK { role := "assistant", content := .blocks content }
      { role := "user", content := .results (execTools exec obs (toolUses content)).2 } := by
  intro c rs h1 h2
  simp [Message.mk.injEq] at h1 h2
  subst h1
  rw [← h2]
  exact execTools_ids exec obs (toolUses content)

theorem chain_append_assistant (ms : List Message) (h : List.Chain' pairOK ms)
    (content : List Block) :
    List.Chain' pairOK
      (ms ++ [{ role := "assistant", content := .blocks content }]) := by
  refine List.Chain'.append h (List.chain'_singleton _) ?_
  intro x hx y hy
  simp at hy
  subst hy
  exact pairOK_to_assistant _ _

theorem chain_append_round (ms : List Message) (h : List.Chain' pairOK ms)
    (exec : Executor) (obs : Option Observer) (content : List Block) :
    List.Chain' pairOK
      (ms ++ [{ role := "assistant", content := .blocks content },
              { role := "user",
                content := .results (execTools exec obs (toolUses content)).2 }]) := by
  refine List.Chain'.append h (List.chain'_pair.mpr (pairOK_assistant_user exec obs content)) ?_
  intro x hx y hy
  simp at hy
  subst hy
  exact pairOK_to_assistant _ _

theorem runLoop_chain (exec : Executor) (responses : Nat → ApiResponse)
    (obs : Option Observer) (maxI : Nat) :
    ∀ (fuel it : Nat) (ms : List Message), List.Chain' pairOK ms →
      List.Chain' pairOK (runLoop exec responses obs maxI fuel it ms).2 := by
  intro fuel
  induction fuel with
  | zero => intro it ms h; simpa [runLoop] using h
  | succ f ih =>
    intro it ms h
    rcases hr : responses it with ⟨status, body⟩ | m | ⟨content, stop⟩
    · simpa [runLoop, hr] using h
    · simpa [runLoop, hr] using h
    · by_cases htu : toolUses content = []
      · simp [runLoop, hr, htu]
        exact chain_append_assistant ms h content
      · by_cases hstop : stop = "end_turn"
        · simp [runLoop, hr, htu, hstop]
          exact ⟨chain_append_assistant ms h content, pairOK_assistant_user exec obs content⟩
        · simp [runLoop, hr, htu, hstop]
          exact ih (it + 1) _ (chain_append_round ms h exec obs content)

theorem iterNums_textEvents (content : List Block) :
    iterNums (textEvents content) = [] := by
  induction content with
  | nil => rfl
  | cons b bs ih => cases b <;> simp [textEvents, iterNums, List.filterMap_cons] <;>
      simpa [iterNums] using ih

theorem iterNums_execTools (exec : Executor) (obs : Option Observer)
    (tus : List (String × ToolInput)) :
    iterNums (execTools exec obs tus).1 = [] := by
  induction tus with
  | nil => rfl
  | cons hd tl ih =>
    cases hd with
    | mk id inp => simpa [execTools, iterNums, List.filterMap_cons] using ih

theorem iterNums_append (l1 l2 : List Event) :
    iterNums (l1 ++ l2) = iterNums l1 ++ iterNums l2 := by
  simp [iterNums, List.filterMap_append]

theorem iterNums_cons_iter (i m : Nat) (l : List Event) :
    iterNums (.iterStart i m :: l) = i :: iterNums l := by
  simp [iterNums, List.filterMap_cons]

theorem runLoop_iterNums (exec : Executor) (responses : Nat → ApiResponse)
    (obs : Option Observer) (maxI : Nat) :
    ∀ (fuel it : Nat) (ms : List Message), ∃ k, k ≤ fuel ∧
      iterNums (runLoop exec responses obs maxI fuel it ms).1 = List.range' (it + 1) k := by
  intro fuel
  induction fuel with
  | zero => intro it ms; exact ⟨0, le_refl 0, by simp [runLoop, iterNums]⟩
  | succ f ih =>
    intro it ms
    rcases hr : responses it with ⟨status, body⟩ | m | ⟨content, stop⟩
    · refine ⟨1, by omega, ?_⟩
      simp [runLoop, hr, iterNums, List.range'_succ]
    · refine ⟨1, by omega, ?_⟩
      simp [runLoop, hr, iterNums, List.range'_succ]
    · by_cases htu : toolUses content = []
      · refine ⟨1, by omega, ?_⟩
        have hev : (runLoop exec responses obs maxI (f + 1) it ms).1 =
            .iterStart (it + 1) maxI :: (textEvents content ++ [.complete completedMsg]) := by
          simp [runLoop, hr, htu]
        rw [hev, iterNums_cons_iter, iterNums_append, iterNums_textEvents]
        simp [iterNums, List.range'_succ]
      · by_cases hstop : stop = "end_turn"
        · refine ⟨1, by omega, ?_⟩
          have hev : (runLoop exec responses obs maxI (f + 1) it ms).1 =
              .iterStart (it + 1) maxI :: (textEvents content
                ++ (execTools exec obs (toolUses content)).1 ++ [.complete completedMsg]) := by
            simp [runLoop, hr, htu, hstop]
          rw [hev, iterNums_cons_iter, iterNums_append, iterNums_append,
              iterNums_textEvents, iterNums_execTools]
          simp [iterNums, List.range'_succ]
        · obtain ⟨k, hk, heq⟩ := ih (it + 1)
            (ms ++ [{ role := "assistant", content := .blocks content },
                    { role := "user",
                      content := .results (execTools exec obs (toolUses content)).2 }])
          refine ⟨k + 1, by omega, ?_⟩
          have hev : (runLoop exec responses obs maxI (f + 1) it ms).1 =
              .iterStart (it + 1) maxI :: (textEvents content
                ++ (execTools exec obs (toolUses content)).1
                ++ (runLoop exec responses obs maxI f (it + 1)
                      (ms ++ [{ role := "assistant", content := .blocks content },
                              { role := "user",
                                content := .results
                                  (execTools exec obs (toolUses content)).2 }])).1) := by
            simp [runLoop, hr, htu, hstop]
          rw [hev, iterNums_cons_iter, iterNums_append, iterNums_append,
              iterNums_textEvents, iterNums_execTools, heq]
          simp [List.range'_succ]

theorem runLoop_budget (exec : Executor) (responses : Nat → ApiResponse)
    (obs : Option Observer) (maxI : Nat) (h : alwaysRequestsTools responses) :
    ∀ (fuel it : Nat) (ms : List Message),
      iterNums (runLoop exec responses obs maxI fuel it ms).1 = List.range' (it + 1) fuel ∧
      ∃ es, (runLoop exec responses obs maxI fuel it ms).1 = es ++ [.error (budgetMsg maxI)] := by
  intro fuel
  induction fuel with
  | zero =>
    intro it ms
    exact ⟨by simp [runLoop, iterNums], ⟨[], by simp [runLoop]⟩⟩
  | succ f ih =>
    intro it ms
    obtain ⟨content, stop, hr, htu, hstop⟩ := h it
    obtain ⟨ih1, es, ihes⟩ := ih (it + 1)
      (ms ++ [{ role := "assistant", content := .blocks content },
              { role := "user",
                content := .results (execTools exec obs (toolUses content)).2 }])
    have hev : (runLoop exec responses obs maxI (f + 1) it ms).1 =
        .iterStart (it + 1) maxI :: (textEvents content
          ++ (execTools exec obs (toolUses content)).1
          ++ (runLoop exec responses obs maxI f (it + 1)
                (ms ++ [{ role := "assistant", content := .blocks content },
                        { role := "user",
                          content := .results
                            (execTools exec obs (toolUses content)).2 }])).1) := by
      simp [runLoop, hr, htu, hstop]
    constructor
    · rw [hev, iterNums_cons_iter, iterNums_append, iterNums_append,
          iterNums_textEvents, iterNums_execTools, ih1]
      simp [List.range'_succ]
    · refine ⟨.iterStart (it + 1) maxI :: (textEvents content
        ++ (execTools exec obs (toolUses content)).1 ++ es), ?_⟩
      rw [hev, ihes]
      simp

/-! The claim theorems. -/

/-- Claim C1: for every session, the counters carried by successive
`Iteration` progress events are `1, 2, 3, ...` increasing by exactly one and
never exceed `config.maxIterations`; and if every endpoint reply contains at
least one tool invocation and never signals end-of-turn, the session
terminates with the budget-exceeded error exactly after the
`maxIterations`-th iteration. -/
theorem iteration_counter_invariant (userMessage : String) (config : ComputerUseConfig)
    (responses : Nat → ApiResponse) (exec : Executor) (obs : Option Observer) :
    (∃ k, k ≤ config.maxIterations ∧
      iterNums (computerUseAgentLoop userMessage config responses exec obs).1 =
        List.range' 1 k) ∧
    (∀ n ∈ iterNums (computerUseAgentLoop userMessage config responses exec obs).1,
      n ≤ config.maxIterations) ∧
    (alwaysRequestsTools responses →
      iterNums (computerUseAgentLoop userMessage config responses exec obs).1 =
        List.range' 1 config.maxIterations ∧
      ∃ es, (computerUseAgentLoop userMessage config responses exec obs).1 =
        es ++ [.error (budgetMsg config.maxIterations)]) := by
  refine ⟨?_, ?_, ?_⟩
  · obtain ⟨k, hk, heq⟩ := runLoop_iterNums exec responses obs config.maxIterations
      config.maxIterations 0 [{ role := "user", content := .str userMessage }]
    exact ⟨k, hk, heq⟩
  · obtain ⟨k, hk, heq⟩ := runLoop_iterNums exec responses obs config.maxIterations
      config.maxIterations 0 [{ role := "user", content := .str userMessage }]
    intro n hn
    have heq2 : iterNums (computerUseAgentLoop userMessage config responses exec obs).1 =
        List.range' 1 k := heq
    rw [heq2] at hn
    have := List.mem_range'_1.mp hn
    omega
  · intro h
    exact runLoop_budget exec responses obs config.maxIterations h
      config.maxIterations 0 [{ role := "user", content := .str userMessage }]

/-- Witness for C1 at `maxIterations = 3` with a model that always requests
more tool use: counters are exactly `[1, 2, 3]` and the loop ends with the
budget-exceeded error. -/
theorem iteration_counter_invariant_witness :
    iterNums (computerUseAgentLoop "go" { maxIterations := 3 } toolReply okExec none).1 =
      List.range' 1 3 ∧
    ∃ es, (computerUseAgentLoop "go" { maxIterations := 3 } toolReply okExec none).1 =
      es ++ [.error (budgetMsg 3)] :=
  (iteration_counter_invariant "go" { maxIterations := 3 } toolReply okExec none).2.2
    (fun _ => ⟨[Block.text "hi", Block.tool_use "tu_1" { action := "screenshot" }],
      "tool_use", rfl, by decide, by decide⟩)

/-- Claim C2: whenever a user turn of tool results directly follows an
assistant turn in the final transcript, it contains exactly as many
`ToolResult` blocks as the assistant reply had tool invocations, in the same
order, each `tool_use_id` equal to the id of the corresponding invocation. -/
theorem tool_results_match_invocations (userMessage : String) (config : ComputerUseConfig)
    (responses : Nat → ApiResponse) (exec : Executor) (obs : Option Observer)
    (j : Nat) (content : List Block) (rs : List ToolResult)
    (h1 : (computerUseAgentLoop userMessage config responses exec obs).2.get? j =
      some { role := "assistant", content := .blocks content })
    (h2 : (computerUseAgentLoop userMessage config responses exec obs).2.get? (j + 1) =
      some { role := "user", content := .results rs }) :
    rs.length = (toolUses content).length ∧
    rs.map ToolResult.tool_use_id = (toolUses content).map Prod.fst := by
  have hch : List.Chain' pairOK (computerUseAgentLoop userMessage config responses exec obs).2 :=
    runLoop_chain exec responses obs config.maxIterations config.maxIterations 0 _
      (List.chain'_singleton _)
  obtain ⟨hl1, hg1⟩ := List.get?_eq_some.mp h1
  obtain ⟨hl2, hg2⟩ := List.get?_eq_some.mp h2
  have hlt : j < (computerUseAgentLoop userMessage config responses exec obs).2.length - 1 := by
    omega
  have hp := List.chain'_iff_get.mp hch j hlt
  rw [hg1, hg2] at hp
  have hmap := hp content rs rfl rfl
  refine ⟨?_, hmap⟩
  have := congrArg List.length hmap
  simpa using this

/-- Witness for C2 on a round with two invocations: counts and ids match. -/
theorem tool_results_match_invocations_witness :
    ((execTools okExec none (toolUses twoToolContent)).2).length =
      (toolUses twoToolContent).length ∧
    ((execTools okExec none (toolUses twoToolContent)).2).map ToolResult.tool_use_id =
      (toolUses twoToolContent).map Prod.fst :=
  tool_results_match_invocations "go" { maxIterations := 2 } twoToolReply okExec none 1
    twoToolContent (execTools okExec none (toolUses twoToolContent)).2
    (by decide) (by decide)

/-- Claim C3: a round terminates the session with `Completed` iff the reply
has no tool-invocation blocks (same iteration, regardless of remaining
budget) or its stop indicator is `end_turn` (after the round's results were
appended); in every other round the loop continues with the next call. -/
theorem completion_characterization (exec : Executor) (responses : Nat → ApiResponse)
    (obs : Option Observer) (maxI fuel it : Nat) (ms : List Message)
    (content : List Block) (stop : String) (h : responses it = .ok content stop) :
    (toolUses content = [] →
      runLoop exec responses obs maxI (fuel + 1) it ms =
        (.iterStart (it + 1) maxI :: textEvents content ++ [.complete completedMsg],
         ms ++ [{ role := "assistant", content := .blocks content }])) ∧
    (toolUses content ≠ [] → stop = "end_turn" →
      runLoop exec responses obs maxI (fuel + 1) it ms =
        (.iterStart (it + 1) maxI :: textEvents content
           ++ (execTools exec obs (toolUses content)).1 ++ [.complete completedMsg],
         ms ++ [{ role := "assistant", content := .blocks content },
                { role := "user",
                  content := .results (execTools exec obs (toolUses content)).2 }])) ∧
    (toolUses content ≠ [] → stop ≠ "end_turn" →
      runLoop exec responses obs maxI (fuel + 1) it ms =
        (.iterStart (it + 1) maxI :: textEvents content
           ++ (execTools exec obs (toolUses content)).1
           ++ (runLoop exec responses obs maxI fuel (it + 1)
                 (ms ++ [{ role := "assistant", content := .blocks content },
                         { role := "user",
                           content := .results
                             (execTools exec obs (toolUses content)).2 }])).1,
         (runLoop exec responses obs maxI fuel (it + 1)
            (ms ++ [{ role := "assistant", content := .blocks content },
                    { role := "user",
                      content := .results
                        (execTools exec obs (toolUses content)).2 }])).2)) := by
  refine ⟨?_, ?_, ?_⟩
  · intro h1
    simp [runLoop, h, h1]
  · intro h1 h2
    simp [runLoop, h, h1, h2]
  · intro h1 h2
    simp [runLoop, h, h1, h2]

/-- Witness for C3 on a reply with tool invocations and `end_turn`: the
round appends the results and terminates with the completion event. -/
theorem completion_characterization_witness :
    runLoop okExec twoToolReply none 5 1 0 [] =
      (.iterStart 1 5 :: textEvents twoToolContent
         ++ (execTools okExec none (toolUses twoToolContent)).1 ++ [.complete completedMsg],
       [] ++ [{ role := "assistant", content := .blocks twoToolContent },
              { role := "user",
                content := .results (execTools okExec none (toolUses twoToolContent)).2 }]) :=
  (completion_characterization okExec twoToolReply none 5 0 0 [] twoToolContent
    "end_turn" rfl).2.1 (by decide) rfl

/-- Claim C4: when the Action Executor raises during a supported,
well-formed invocation, dispatch returns a `ToolResult` with
`is_error = true` whose content contains the failure's message; the failure
never propagates (dispatch is total) and the loop continues to the next
endpoint call rather than terminating. -/
theorem action_failure_recoverable (m action : String) (params : Params)
    (hsup : action ∈ supportedActions) (hwf : wellFormed action params) :
    ((executeComputerAction (failingExecutor m) action params none).1.is_error = true ∧
     (executeComputerAction (failingExecutor m) action params none).1.content =
       .text ("Error: " ++ m)) ∧
    (∀ (responses : Nat → ApiResponse) (obs : Option Observer) (maxI fuel it : Nat)
       (ms : List Message) (content : List Block) (stop : String),
       responses it = .ok content stop → toolUses content ≠ [] → stop ≠ "end_turn" →
       (runLoop (failingExecutor m) responses obs maxI (fuel + 1) it ms).1 =
         .iterStart (it + 1) maxI :: textEvents content
           ++ (execTools (failingExecutor m) obs (toolUses content)).1
           ++ (runLoop (failingExecutor m) responses obs maxI fuel (it + 1)
                 (ms ++ [{ role := "assistant", content := .blocks content },
                         { role := "user",
                           content := .results
                             (execTools (failingExecutor m) obs (toolUses content)).2 }])).1) := by
  constructor
  · simp [supportedActions, List.mem_cons] at hsup
    rcases hsup with rfl | rfl | rfl | rfl | rfl | rfl | rfl | rfl | rfl | rfl
    · simp [executeComputerAction, dispatchSwitch, coordStep, invokeStep,
            failingExecutor, Except.map]
    · obtain ⟨c, hc⟩ := Option.isSome_iff_exists.mp (hwf.1 (by decide))
      simp [executeComputerAction, dispatchSwitch, coordStep, invokeStep,
            failingExecutor, Except.map, hc]
    · obtain ⟨c, hc⟩ := Option.isSome_iff_exists.mp (hwf.1 (by decide))
      simp [executeComputerAction, dispatchSwitch, coordStep, invokeStep,
            failingExecutor, Except.map, hc]
    · obtain ⟨c, hc⟩ := Option.isSome_iff_exists.mp (hwf.1 (by decide))
      simp [executeComputerAction, dispatchSwitch, coordStep, invokeStep,
            failingExecutor, Except.map, hc]
    · obtain ⟨c, hc⟩ := Option.isSome_iff_exists.mp (hwf.1 (by decide))
      simp [executeComputerAction, dispatchSwitch, coordStep, invokeStep,
            failingExecutor, Except.map, hc]
    · obtain ⟨c, hc⟩ := Option.isSome_iff_exists.mp (hwf.1 (by decide))
      simp [executeComputerAction, dispatchSwitch, coordStep, invokeStep,
            failingExecutor, Except.map, hc]
    · obtain ⟨c, hc⟩ := Option.isSome_iff_exists.mp (hwf.2 rfl).1
      obtain ⟨e, he⟩ := Option.isSome_iff_exists.mp (hwf.2 rfl).2
      simp [executeComputerAction, dispatchSwitch, coordStep, invokeStep,
            failingExecutor, Except.map, hc, he]
    · simp [executeComputerAction, dispatchSwitch, coordStep, invokeStep,
            failingExecutor, Except.map]
    · simp [executeComputerAction, dispatchSwitch, coordStep, invokeStep,
            failingExecutor, Except.map]
    · simp [executeComputerAction, dispatchSwitch, coordStep, invokeStep,
            failingExecutor, Except.map]
  · intro responses obs maxI fuel it ms content stop h h1 h2
    simp [runLoop, h, h1, h2]

/-- Witness for C4: a denied `left_click` yields an error `ToolResult`
carrying the failure message. -/
theorem action_failure_recoverable_witness :
    (executeComputerAction (failingExecutor "denied") "left_click" clickParams none).1.is_error =
      true ∧
    (executeComputerAction (failingExecutor "denied") "left_click" clickParams none).1.content =
      .text ("Error: " ++ "denied") :=
  (action_failure_recoverable "denied" "left_click" clickParams (by decide)
    ⟨fun _ => rfl, fun h => absurd h (by decide)⟩).1

/-- Claim C5: a non-success endpoint response terminates the loop
immediately: the only events are the iteration event and one error event
surfacing both status and body, the call is never retried, and no turns are
appended to the transcript. -/
theorem transport_error_terminal (exec : Executor) (responses : Nat → ApiResponse)
    (obs : Option Observer) (maxI fuel it : Nat) (ms : List Message)
    (status : Nat) (body : String) (h : responses it = .fail status body) :
    runLoop exec responses obs maxI (fuel + 1) it ms =
      ([.iterStart (it + 1) maxI, .error (transportMsg status body)], ms) := by
  simp [runLoop, h]

/-- Witness for C5 at status 500 with body `"boom"`. -/
theorem transport_error_terminal_witness :
    runLoop okExec (fun _ => .fail 500 "boom") none 5 1 0 [] =
      ([.iterStart 1 5, .error (transportMsg 500 "boom")], []) :=
  transport_error_terminal okExec (fun _ => .fail 500 "boom") none 5 0 0 [] 500 "boom" rfl

/-- Claim C6: a success-status response with a malformed body terminates the
loop with the protocol error event `Error: msg`, appending no turns, and
this terminal message is distinct from every transport-error message. -/
theorem protocol_error_terminal (exec : Executor) (responses : Nat → ApiResponse)
    (obs : Option Observer) (maxI fuel it : Nat) (ms : List Message)
    (m : String) (h : responses it = .malformed m) :
    runLoop exec responses obs maxI (fuel + 1) it ms =
      ([.iterStart (it + 1) maxI, .error ("Error: " ++ m)], ms) ∧
    (∀ status body, "Error: " ++ m ≠ transportMsg status body) := by
  constructor
  · simp [runLoop, h]
  · intro status body heq
    have h2 := congrArg (fun s : String => s.data.head?) heq
    simp [transportMsg, String.data_append] at h2

/-- Witness for C6 with a JSON parse failure message. -/
theorem protocol_error_terminal_witness :
    runLoop okExec (fun _ => .malformed "bad json") none 5 1 0 [] =
      ([.iterStart 1 5, .error ("Error: " ++ "bad json")], []) ∧
    (∀ status body, "Error: " ++ "bad json" ≠ transportMsg status body) :=
  protocol_error_terminal okExec (fun _ => .malformed "bad json") none 5 0 0 [] "bad json" rfl

/-- Claim C7: any action outside the supported set yields a `ToolResult`
with `is_error = true` and content exactly `Unsupported action: name`,
with no executor call and no failure raised to the caller. -/
theorem unsupported_action_result (exec : Executor) (params : Params) (action : String)
    (h : action ∉ supportedActions) :
    executeComputerAction exec action params none =
      ({ tool_use_id := params.tool_use_id,
         content := .text ("Unsupported action: " ++ action), is_error := true }, []) := by
  simp [supportedActions, List.mem_cons, not_or] at h
  obtain ⟨h1, h2, h3, h4, h5, h6, h7, h8, h9, h10⟩ := h
  simp [executeComputerAction, dispatchSwitch, h1, h2, h3, h4, h5, h6, h7, h8, h9, h10]

/-- Witness for C7 at the unsupported action `"fly"`. -/
theorem unsupported_action_result_witness :
    executeComputerAction (fun _ => .ok "r") "fly" (mkParams "t" { action := "fly" }) none =
      ({ tool_use_id := "t",
         content := .text ("Unsupported action: " ++ "fly"), is_error := true }, []) :=
  unsupported_action_result (fun _ => .ok "r") (mkParams "t" { action := "fly" }) "fly"
    (by decide)

/-- Claim C8: a scroll invocation dispatches one executor scroll call whose
vertical delta is `+scroll_amount` for direction `"down"` and
`-scroll_amount` for direction `"up"`. -/
theorem scroll_direction_delta (exec : Executor) (params : Params) :
    (params.scroll_direction = "down" →
      (executeComputerAction exec "scroll" params none).2 =
        [.invoke (.computer_mouse_scroll (coordOr0 params.coordinate).1
          (coordOr0 params.coordinate).2 0 params.scroll_amount)]) ∧
    (params.scroll_direction = "up" →
      (executeComputerAction exec "scroll" params none).2 =
        [.invoke (.computer_mouse_scroll (coordOr0 params.coordinate).1
          (coordOr0 params.coordinate).2 0 (-params.scroll_amount))]) := by
  constructor <;> intro hdir
  · cases hx : exec (.computer_mouse_scroll (coordOr0 params.coordinate).1
        (coordOr0 params.coordinate).2 0 params.scroll_amount) <;>
      simp [executeComputerAction, dispatchSwitch, invokeStep, scrollDelta, Except.map, hdir, hx]
  · cases hx : exec (.computer_mouse_scroll (coordOr0 params.coordinate).1
        (coordOr0 params.coordinate).2 0 (-params.scroll_amount)) <;>
      simp [executeComputerAction, dispatchSwitch, invokeStep, scrollDelta, Except.map, hdir, hx]

/-- Witness for C8 with `scroll_amount = 5`: delta `+5` down, `-5` up. -/
theorem scroll_direction_delta_witness :
    (executeComputerAction okExec "scroll"
      (mkParams "t" { action := "scroll", coordinate := some (7, 8),
                      scroll_direction := "down", scroll_amount := 5 }) none).2 =
      [.invoke (.computer_mouse_scroll (coordOr0 (some ((7 : Int), (8 : Int)))).1
        (coordOr0 (some ((7 : Int), (8 : Int)))).2 0 5)] ∧
    (executeComputerAction okExec "scroll"
      (mkParams "t" { action := "scroll", coordinate := some (7, 8),
                      scroll_direction := "up", scroll_amount := 5 }) none).2 =
      [.invoke (.computer_mouse_scroll (coordOr0 (some ((7 : Int), (8 : Int)))).1
        (coordOr0 (some ((7 : Int), (8 : Int)))).2 0 (-5))] :=
  ⟨(scroll_direction_delta okExec
      (mkParams "t" { action := "scroll", coordinate := some (7, 8),
                      scroll_direction := "down", scroll_amount := 5 })).1 rfl,
   (scroll_direction_delta okExec
      (mkParams "t" { action := "scroll", coordinate := some (7, 8),
                      scroll_direction := "up", scroll_amount := 5 })).2 rfl⟩

/-- Claim C9 counterexample: an observer that raises changes the
`ToolResult` returned by dispatch, so the result is not always the same
with and without an observer. -/
theorem observer_can_alter_result :
    (executeComputerAction (fun _ => .ok "clicked") "left_click"
       (mkParams "t" { action := "left_click", coordinate := some (1, 2) })
       (some fun _ _ => .error "boom")).1 ≠
    (executeComputerAction (fun _ => .ok "clicked") "left_click"
       (mkParams "t" { action := "left_click", coordinate := some (1, 2) }) none).1 := by
  decide

/-- Claim C9 as amended: for every observer that returns normally, the
observer is invoked with `(action, params)` before any executor call (it
heads the dispatch trace) and the returned `ToolResult` is the same as
without an observer. -/
theorem observer_transparent_when_ok (exec : Executor) (action : String) (params : Params)
    (f : Observer) (h : f action params = .ok ()) :
    (executeComputerAction exec action params (some f)).1 =
      (executeComputerAction exec action params none).1 ∧
    (executeComputerAction exec action params (some f)).2 =
      .observer action params :: (executeComputerAction exec action params none).2 := by
  cases hd : dispatchSwitch exec action params with
  | mk tr r =>
    cases r <;> simp [executeComputerAction, h, hd]

/-- Witness for the amended C9 with a trivial observer on a click. -/
theorem observer_transparent_when_ok_witness :
    (executeComputerAction okExec "left_click" clickParams (some fun _ _ => .ok ())).1 =
      (executeComputerAction okExec "left_click" clickParams none).1 ∧
    (executeComputerAction okExec "left_click" clickParams (some fun _ _ => .ok ())).2 =
      .observer "left_click" clickParams ::
        (executeComputerAction okExec "left_click" clickParams none).2 :=
  observer_transparent_when_ok okExec "left_click" clickParams (fun _ _ => .ok ()) rfl

/-- Claim C10: a scroll invocation with the coordinate field omitted does
not fail: the executor scroll is called at `(0, 0)`, a successful executor
reply yields a non-error ack `ToolResult`, and in every scroll dispatch the
horizontal delta is `0`. -/
theorem scroll_missing_coordinate (exec : Executor) (params : Params)
    (h : params.coordinate = none) :
    (executeComputerAction exec "scroll" params none).2 =
      [.invoke (.computer_mouse_scroll 0 0 0 (scrollDelta params))] ∧
    (∀ s, exec (.computer_mouse_scroll 0 0 0 (scrollDelta params)) = .ok s →
      (executeComputerAction exec "scroll" params none).1 =
        { tool_use_id := params.tool_use_id, content := .text s, is_error := false }) ∧
    (∀ q : Params, ∀ x y sx sy : Int,
      TraceEntry.invoke (.computer_mouse_scroll x y sx sy) ∈
        (executeComputerAction exec "scroll" q none).2 → sx = 0) := by
  refine ⟨?_, ?_, ?_⟩
  · cases hx : exec (.computer_mouse_scroll 0 0 0 (scrollDelta params)) <;>
      simp [executeComputerAction, dispatchSwitch, invokeStep, coordOr0, Except.map, h, hx]
  · intro s hx
    simp [executeComputerAction, dispatchSwitch, invokeStep, coordOr0, mkOk, Except.map, h, hx]
  · intro q x y sx sy hmem
    cases hx : exec (.computer_mouse_scroll (coordOr0 q.coordinate).1 (coordOr0 q.coordinate).2
        0 (scrollDelta q)) <;>
      simp [executeComputerAction, dispatchSwitch, invokeStep, Except.map, hx] at hmem <;>
      exact hmem.2.2.1

/-- Witness for C10: scroll with no coordinate dispatches at `(0, 0)` and
succeeds. -/
theorem scroll_missing_coordinate_witness :
    (executeComputerAction okExec "scroll" scrollNoCoord none).2 =
      [.invoke (.computer_mouse_scroll 0 0 0 (scrollDelta scrollNoCoord))] ∧
    (executeComputerAction okExec "scroll" scrollNoCoord none).1 =
      { tool_use_id := "t", content := .text "done", is_error := false } :=
  ⟨(scroll_missing_coordinate okExec scrollNoCoord rfl).1,
   (scroll_missing_coordinate okExec scrollNoCoord rfl).2.1 "done" rfl⟩

end ComputerUse
